import Mathlib

/-!
Verification of the PPE detection video pipeline (src/yolo/app.py).

The program decodes a video frame by frame, runs a pretrained YOLO model on
each frame, accumulates per-class detection counts in a Counter, writes each
annotated frame to a video writer, reports progress through an optional
callback, and finally hands the intermediate file to an external ffmpeg
process for H.264 encoding.

Modelling choices:
- A decoded video is the finite list of frames the decoder yields before its
  first failed read; frames are abstract identifiers (Nat).
- The YOLO model is a pair of pure functions: per-frame inference output
  (the list of detected class indices, as in results[0].boxes.cls, together
  with the rendered annotated frame of results[0].plot()) and the class-name
  table model.names.
- The Python Counter is modelled as the list of detected class names in
  accumulation order; Counter equality is count equality per name.
- cv2 property reads return doubles; only zero-testing (Python falsiness) and
  int() truncation are applied to them, so they are modelled as rationals.
- The observable actions of one run are recorded as an event trace, so that
  ordering claims (read / inference / aggregation / progress / write / encode
  hand-off) are statements about the trace.
-/

namespace PPE

/-- Python int() applied to a numeric value truncates toward zero. -/
def pyTrunc (q : ℚ) : ℤ := if 0 ≤ q then ⌊q⌋ else ⌈q⌉

/-- Config.CONFIDENCE_THRESHOLD = 0.4 (passed through to the model, unused by
the glue logic itself). -/
def CONFIDENCE_THRESHOLD : ℚ := 2 / 5

/-- Config.DEFAULT_FPS = 25. -/
def DEFAULT_FPS : ℚ := 25

/-- Config.H264_CODEC = "libx264". -/
def H264_CODEC : String := "libx264"

/-- Config.PIXEL_FORMAT = "yuv420p". -/
def PIXEL_FORMAT : String := "yuv420p"

/-- The raw property values a cv2.VideoCapture reports for a file: FPS,
frame width, frame height and frame count, all doubles on the cv2 side. -/
structure RawVideoProps where
  fps : ℚ
  width : ℚ
  height : ℚ
  frameCount : ℚ
deriving DecidableEq

/-- get_video_properties: fps is `cap.get(CAP_PROP_FPS) or Config.DEFAULT_FPS`
(Python `or`: the only falsy doubles are the zeros, so a zero FPS is replaced
by the default), and width, height and frame count pass through int(). -/
def get_video_properties (raw : RawVideoProps) : ℚ × ℤ × ℤ × ℤ :=
  (if raw.fps = 0 then DEFAULT_FPS else raw.fps,
   pyTrunc raw.width, pyTrunc raw.height, pyTrunc raw.frameCount)

/-- Per-frame output of the model call `model(frame, conf=..., verbose=False)`:
the detected class indices (results[0].boxes.cls, one entry per detection box)
and the annotated frame produced by results[0].plot(). -/
structure ModelOutput where
  cls : List Nat
  plotted : Nat
deriving DecidableEq

/-- The YOLO model as the pipeline sees it: a deterministic per-frame
inference function and the class-name table model.names. -/
structure YoloModel where
  names : Nat → String
  infer : Nat → ModelOutput

/-- An input video: the properties its decoder reports and the frames the
decoder yields, in order, before the first failed read. -/
structure InputVideo where
  raw : RawVideoProps
  frames : List Nat

/-- Observable actions of a pipeline run, in execution order. -/
inductive Event where
  | readFrame : Nat → Event
  | inference : Nat → Event
  | aggregate : Nat → List String → Event
  | progress : Nat → ℤ → Event
  | writeFrame : Nat → Event
  | encode : List String → Event
deriving DecidableEq

/-- State of the frame loop in process_video_with_yolo: the stats Counter
(as the list of accumulated class names), the frame_id counter, and the
instrumentation records (event trace, frames written by out.write, and the
arguments of every progress_callback invocation). -/
structure LoopState where
  stats : List String
  frameId : Nat
  trace : List Event
  writes : List Nat
  progressCalls : List (Nat × ℤ)
deriving DecidableEq

/-- Loop state before the first iteration: stats = Counter(), frame_id = 0. -/
def initLoopState : LoopState := ⟨[], 0, [], [], []⟩

/-- One iteration of the while loop of process_video_with_yolo, in source
order: the read succeeded with `frame`; frame_id += 1; run the model; if the
frame has at least one detection box, update stats with the Counter of the
detected class names; if a callback was supplied and total_frames > 0, call
progress_callback(frame_id, total_frames); plot and write the annotated
frame. -/
def processFrame (m : YoloModel) (hasCallback : Bool) (totalFrames : ℤ)
    (s : LoopState) (frame : Nat) : LoopState :=
  let frameId := s.frameId + 1
  let results := m.infer frame
  let detNamesHere := results.cls.map m.names
  let stats := if 0 < results.cls.length then s.stats ++ detNamesHere else s.stats
  let aggEv : List Event :=
    if 0 < results.cls.length then [Event.aggregate frame detNamesHere] else []
  let doProgress := hasCallback && decide (0 < totalFrames)
  let progEv : List Event := if doProgress then [Event.progress frameId totalFrames] else []
  let progCalls : List (Nat × ℤ) := if doProgress then [(frameId, totalFrames)] else []
  let annotated := results.plotted
  { stats := stats
    frameId := frameId
    trace := s.trace ++ [Event.readFrame frame, Event.inference frame]
               ++ aggEv ++ progEv ++ [Event.writeFrame annotated]
    writes := s.writes ++ [annotated]
    progressCalls := s.progressCalls ++ progCalls }

/-- The total frame count process_video_with_yolo obtains from
get_video_properties on its input. -/
def totalFramesOf (input : InputVideo) : ℤ :=
  (get_video_properties input.raw).2.2.2

/-- process_video_with_yolo: iterate the loop body over every frame the
decoder yields, starting from the empty Counter and frame_id = 0. The
returned state carries the stats Counter the function returns, plus the
instrumentation records. -/
def process_video_with_yolo (m : YoloModel) (hasCallback : Bool)
    (input : InputVideo) : LoopState :=
  input.frames.foldl (processFrame m hasCallback (totalFramesOf input)) initLoopState

/-- subprocess.run on a command whose external process exits with `exitCode`:
it raises CalledProcessError only when invoked with check=True and the exit
code is nonzero; otherwise it returns normally. -/
def subprocessRun (check : Bool) (exitCode : ℤ) : Except String ℤ :=
  if check && decide (exitCode ≠ 0) then Except.error "CalledProcessError"
  else Except.ok exitCode

/-- The ffmpeg command list built by encode_to_h264. -/
def buildFfmpegCmd (ffmpegPath inputPath outputPath : String) : List String :=
  [ffmpegPath, "-y", "-i", inputPath, "-vcodec", H264_CODEC,
   "-pix_fmt", PIXEL_FORMAT, "-movflags", "+faststart", outputPath]

/-- encode_to_h264: build the single ffmpeg command and run it once via
subprocess.run with stdout and stderr discarded and without check, ignoring
the exit code. `runner` gives the external process exit code for a command.
Returns the (always normal) function result together with the list of
commands handed to subprocess.run. -/
def encode_to_h264 (runner : List String → ℤ)
    (ffmpegPath inputPath outputPath : String) :
    Except String Unit × List (List String) :=
  let cmd := buildFfmpegCmd ffmpegPath inputPath outputPath
  let r := subprocessRun false (runner cmd)
  (r.map fun _ => (), [cmd])

/-- update_progress (defined inside process_uploaded_video): progress is
current / total when total > 0 and 0 otherwise. -/
def update_progress (current : Nat) (total : ℤ) : ℚ :=
  if 0 < total then (current : ℚ) / (total : ℚ) else 0

/-- Result of process_uploaded_video: the saved input path, the final output
path, the stats Counter, and the full event trace of the run. -/
structure UploadResult where
  inputPath : String
  finalPath : String
  stats : List String
  trace : List Event
deriving DecidableEq

/-- process_uploaded_video: derive the uid-based paths, save the upload, run
process_video_with_yolo with the update_progress callback on the temp path,
then hand the temp file to encode_to_h264 targeting the final path. -/
def process_uploaded_video (runner : List String → ℤ) (ffmpegPath uid : String)
    (m : YoloModel) (input : InputVideo) : UploadResult :=
  let inputPath := "uploads/" ++ uid ++ ".mp4"
  let tempPath := "outputs/" ++ uid ++ "_temp.mp4"
  let finalPath := "outputs/" ++ uid ++ "_final.mp4"
  let run := process_video_with_yolo m true input
  let enc := encode_to_h264 runner ffmpegPath tempPath finalPath
  { inputPath := inputPath
    finalPath := finalPath
    stats := run.stats
    trace := run.trace ++ enc.2.map Event.encode }

/-- The class names the model detects on one frame, in box order. -/
def detNames (m : YoloModel) (f : Nat) : List String :=
  (m.infer f).cls.map m.names

/-- The events one loop iteration emits when it processes frame `f` as the
`frameId`-th frame, stated directly (read, inference, conditional
aggregation, conditional progress report, write). -/
def frameEvents (m : YoloModel) (cb : Bool) (total : ℤ)
    (frameId frame : Nat) : List Event :=
  [Event.readFrame frame, Event.inference frame]
    ++ (if 0 < (m.infer frame).cls.length
        then [Event.aggregate frame (detNames m frame)] else [])
    ++ (if cb && decide (0 < total) then [Event.progress frameId total] else [])
    ++ [Event.writeFrame (m.infer frame).plotted]

/-- The full event trace the loop emits on a frame list, when the frames are
numbered starting from `k + 1`. -/
def expectedTrace (m : YoloModel) (cb : Bool) (total : ℤ) :
    Nat → List Nat → List Event
  | _, [] => []
  | k, f :: fs => frameEvents m cb total (k + 1) f ++ expectedTrace m cb total (k + 1) fs

/-- The progress-callback invocations the loop makes on a frame list, when
the frames are numbered starting from `k + 1`. -/
def expectedProgress (cb : Bool) (total : ℤ) : Nat → List Nat → List (Nat × ℤ)
  | _, [] => []
  | k, _ :: fs =>
      (if cb && decide (0 < total) then [(k + 1, total)] else [])
        ++ expectedProgress cb total (k + 1) fs

lemma processFrame_eq (m : YoloModel) (cb : Bool) (total : ℤ)
    (s : LoopState) (f : Nat) :
    processFrame m cb total s f =
      { stats := s.stats ++ detNames m f
        frameId := s.frameId + 1
        trace := s.trace ++ frameEvents m cb total (s.frameId + 1) f
        writes := s.writes ++ [(m.infer f).plotted]
        progressCalls := s.progressCalls
          ++ (if cb && decide (0 < total) then [(s.frameId + 1, total)] else []) } := by
  unfold processFrame frameEvents detNames
  by_cases h : 0 < (m.infer f).cls.length
  · simp [h, List.append_assoc]
  · have hnil : (m.infer f).cls = [] :=
      List.length_eq_zero.mp (Nat.eq_zero_of_not_pos h)
    simp [h, hnil, List.append_assoc]

lemma foldl_processFrame (m : YoloModel) (cb : Bool) (total : ℤ)
    (fs : List Nat) (s : LoopState) :
    fs.foldl (processFrame m cb total) s =
      { stats := s.stats ++ (fs.map (detNames m)).flatten
        frameId := s.frameId + fs.length
        trace := s.trace ++ expectedTrace m cb total s.frameId fs
        writes := s.writes ++ fs.map (fun f => (m.infer f).plotted)
        progressCalls := s.progressCalls ++ expectedProgress cb total s.frameId fs } := by
  induction fs generalizing s with
  | nil => cases s; simp [expectedTrace, expectedProgress]
  | cons f fs ih =>
      rw [List.foldl_cons, ih, processFrame_eq]
      simp [expectedTrace, expectedProgress, List.append_assoc, Nat.add_comm,
        Nat.add_assoc, Nat.add_left_comm]

/-- The whole run, in closed form. -/
lemma run_eq (m : YoloModel) (cb : Bool) (input : InputVideo) :
    process_video_with_yolo m cb input =
      { stats := (input.frames.map (detNames m)).flatten
        frameId := input.frames.length
        trace := expectedTrace m cb (totalFramesOf input) 0 input.frames
        writes := input.frames.map (fun f => (m.infer f).plotted)
        progressCalls := expectedProgress cb (totalFramesOf input) 0 input.frames } := by
  unfold process_video_with_yolo
  rw [foldl_processFrame]
  simp [initLoopState]

/-- Recognizer for inference events. -/
def isInferEv : Event → Bool
  | Event.inference _ => true
  | _ => false

/-- Recognizer for encoder hand-off events. -/
def isEncodeEv : Event → Bool
  | Event.encode _ => true
  | _ => false

lemma filter_infer_frameEvents (m : YoloModel) (cb : Bool) (total : ℤ)
    (k f : Nat) :
    (frameEvents m cb total k f).filter isInferEv = [Event.inference f] := by
  unfold frameEvents
  split_ifs <;> simp [isInferEv]

lemma filter_infer_expectedTrace (m : YoloModel) (cb : Bool) (total : ℤ)
    (fs : List Nat) : ∀ k,
    (expectedTrace m cb total k fs).filter isInferEv = fs.map Event.inference := by
  induction fs with
  | nil => intro k; simp [expectedTrace]
  | cons f fs ih =>
      intro k
      simp [expectedTrace, List.filter_append, filter_infer_frameEvents, ih]

lemma filter_encode_frameEvents (m : YoloModel) (cb : Bool) (total : ℤ)
    (k f : Nat) :
    (frameEvents m cb total k f).filter isEncodeEv = [] := by
  unfold frameEvents
  split_ifs <;> simp [isEncodeEv]

lemma filter_encode_expectedTrace (m : YoloModel) (cb : Bool) (total : ℤ)
    (fs : List Nat) : ∀ k,
    (expectedTrace m cb total k fs).filter isEncodeEv = [] := by
  induction fs with
  | nil => intro k; simp [expectedTrace]
  | cons f fs ih =>
      intro k
      simp [expectedTrace, List.filter_append, filter_encode_frameEvents, ih]

lemma expectedProgress_closed (cb : Bool) (total : ℤ) (fs : List Nat) : ∀ k,
    expectedProgress cb total k fs =
      if cb && decide (0 < total)
      then (List.range fs.length).map (fun i => (k + i + 1, total))
      else [] := by
  induction fs with
  | nil => intro k; simp [expectedProgress]
  | cons f fs ih =>
      intro k
      rw [expectedProgress, ih (k + 1)]
      by_cases h : cb && decide (0 < total)
      · simp only [h, if_true, List.length_cons, List.range_succ_eq_map,
          List.map_cons, List.map_map, List.singleton_append, List.cons.injEq]
        refine ⟨by simp, List.map_congr_left fun a _ => ?_⟩
        simp [Function.comp]
        omega
      · simp [h]

lemma progress_mem_expectedTrace (m : YoloModel) (cb : Bool) (total : ℤ)
    (fs : List Nat) : ∀ k (c : Nat) (t : ℤ),
    Event.progress c t ∈ expectedTrace m cb total k fs → 0 < t ∧ t = total := by
  induction fs with
  | nil => intro k c t h; simp [expectedTrace] at h
  | cons f fs ih =>
      intro k c t h
      rw [expectedTrace, List.mem_append] at h
      rcases h with h | h
      · unfold frameEvents at h
        split_ifs at h with h1 h2 h2 <;>
          simp_all
      · exact ih (k + 1) c t h

/-- A small concrete model for witnesses: class 0 is "helmet", anything else
"vest"; frame 0 has one helmet detection, other frames have none. -/
def demoModel : YoloModel where
  names := fun c => if c = 0 then "helmet" else "vest"
  infer := fun f => if f = 0 then { cls := [0], plotted := 100 } else { cls := [], plotted := 101 }

/-- A small concrete input video for witnesses: two frames, reported frame
count 10. -/
def demoInput : InputVideo where
  raw := { fps := 30, width := 640, height := 480, frameCount := 10 }
  frames := [0, 1]

/-- The per-frame event order claim C1 asserts, stated from the claim's
words: read, inference, aggregation, then WRITE the annotated frame, then
report progress. (The code reports progress before writing.) -/
def c1ClaimedFrameEvents (m : YoloModel) (cb : Bool) (total : ℤ)
    (frameId frame : Nat) : List Event :=
  [Event.readFrame frame, Event.inference frame]
    ++ (if 0 < (m.infer frame).cls.length
        then [Event.aggregate frame (detNames m frame)] else [])
    ++ [Event.writeFrame (m.infer frame).plotted]
    ++ (if cb && decide (0 < total) then [Event.progress frameId total] else [])

/-- The full trace claim C1 asserts for a run, built from
c1ClaimedFrameEvents the same way the loop builds its trace. -/
def c1ClaimedTrace (m : YoloModel) (cb : Bool) (total : ℤ) :
    Nat → List Nat → List Event
  | _, [] => []
  | k, f :: fs => c1ClaimedFrameEvents m cb total (k + 1) f
      ++ c1ClaimedTrace m cb total (k + 1) fs

/-- C1 counterexample: on a concrete two-frame video with a positive reported
frame count and a callback, the trace process_video_with_yolo actually emits
reports progress BEFORE writing the annotated frame, so it differs from the
trace the claim's step order (aggregate, write, then report progress)
prescribes for the same input. -/
theorem C1_counterexample :
    (process_video_with_yolo demoModel true demoInput).trace =
      [Event.readFrame 0, Event.inference 0, Event.aggregate 0 ["helmet"],
       Event.progress 1 10, Event.writeFrame 100,
       Event.readFrame 1, Event.inference 1, Event.progress 2 10, Event.writeFrame 101] ∧
    c1ClaimedTrace demoModel true (totalFramesOf demoInput) 0 demoInput.frames =
      [Event.readFrame 0, Event.inference 0, Event.aggregate 0 ["helmet"],
       Event.writeFrame 100, Event.progress 1 10,
       Event.readFrame 1, Event.inference 1, Event.writeFrame 101, Event.progress 2 10] ∧
    (process_video_with_yolo demoModel true demoInput).trace ≠
      c1ClaimedTrace demoModel true (totalFramesOf demoInput) 0 demoInput.frames := by
  refine ⟨by decide, by decide, by decide⟩

/-- C1 (amended): for every frame yielded by the decoder,
process_video_with_yolo performs, in order: read the frame, run inference,
aggregate the frame's per-class detection counts, report progress, then
write the annotated frame; and in process_uploaded_video the hand-off to the
external encoder happens exactly once, after the last frame's events. -/
theorem C1_pipeline_order (runner : List String → ℤ) (p uid : String)
    (m : YoloModel) (input : InputVideo) :
    (process_uploaded_video runner p uid m input).trace =
      expectedTrace m true (totalFramesOf input) 0 input.frames
        ++ [Event.encode (buildFfmpegCmd p ("outputs/" ++ uid ++ "_temp.mp4")
              ("outputs/" ++ uid ++ "_final.mp4"))] ∧
    ((process_uploaded_video runner p uid m input).trace.filter isEncodeEv).length = 1 := by
  have htr : (process_uploaded_video runner p uid m input).trace =
      expectedTrace m true (totalFramesOf input) 0 input.frames
        ++ [Event.encode (buildFfmpegCmd p ("outputs/" ++ uid ++ "_temp.mp4")
              ("outputs/" ++ uid ++ "_final.mp4"))] := by
    show (process_video_with_yolo m true input).trace ++ _ = _
    rw [run_eq]
    rfl
  refine ⟨htr, ?_⟩
  rw [htr, List.filter_append, filter_encode_expectedTrace]
  rfl

/-- C2: the model is invoked exactly once per decoded frame, on every frame
the decoder yields and in decoding order: the inference events of the run's
trace are exactly the frame list mapped to inference events. -/
theorem C2_inference_once_per_frame (m : YoloModel) (cb : Bool)
    (input : InputVideo) :
    (process_video_with_yolo m cb input).trace.filter isInferEv =
      input.frames.map Event.inference := by
  rw [run_eq]
  exact filter_infer_expectedTrace m cb (totalFramesOf input) input.frames 0

/-- C3: for every class name, the final count in the stats Counter returned
by process_video_with_yolo is the sum over all frames of the number of
detections of that class on the frame; a frame with no detections
contributes zero everywhere. -/
theorem C3_stats_is_sum_of_frame_counts (m : YoloModel) (cb : Bool)
    (input : InputVideo) (c : String) :
    (process_video_with_yolo m cb input).stats.count c =
      (input.frames.map (fun f => (detNames m f).count c)).sum := by
  rw [run_eq]
  simp only [List.count_flatten, List.map_map]
  rfl

/-- C4: exactly one annotated frame (the model's rendered result) is written
per decoded frame, in order, including frames with zero detections, so the
writer receives as many frames as were decoded. -/
theorem C4_one_write_per_frame (m : YoloModel) (cb : Bool)
    (input : InputVideo) :
    (process_video_with_yolo m cb input).writes =
      input.frames.map (fun f => (m.infer f).plotted) ∧
    (process_video_with_yolo m cb input).writes.length = input.frames.length := by
  rw [run_eq]
  simp

/-- C5: encode_to_h264 hands subprocess.run exactly one command: the ffmpeg
executable applied to the intermediate file with codec libx264, pixel format
yuv420p and the final output path; in process_uploaded_video that hand-off
is the single encode event and it follows the whole frame loop. -/
theorem C5_single_ffmpeg_command (runner : List String → ℤ) (p uid : String)
    (m : YoloModel) (input : InputVideo) :
    (encode_to_h264 runner p ("outputs/" ++ uid ++ "_temp.mp4")
        ("outputs/" ++ uid ++ "_final.mp4")).2 =
      [[p, "-y", "-i", "outputs/" ++ uid ++ "_temp.mp4", "-vcodec", "libx264",
        "-pix_fmt", "yuv420p", "-movflags", "+faststart",
        "outputs/" ++ uid ++ "_final.mp4"]] ∧
    (process_uploaded_video runner p uid m input).trace =
      (process_video_with_yolo m true input).trace
        ++ [Event.encode (buildFfmpegCmd p ("outputs/" ++ uid ++ "_temp.mp4")
              ("outputs/" ++ uid ++ "_final.mp4"))] ∧
    (process_uploaded_video runner p uid m input).trace.filter isEncodeEv =
      [Event.encode (buildFfmpegCmd p ("outputs/" ++ uid ++ "_temp.mp4")
        ("outputs/" ++ uid ++ "_final.mp4"))] := by
  refine ⟨rfl, rfl, ?_⟩
  show ((process_video_with_yolo m true input).trace ++ _).filter isEncodeEv = _
  rw [List.filter_append, run_eq]
  simp only [filter_encode_expectedTrace]
  rfl

/-- C6: with a callback supplied, process_video_with_yolo invokes it exactly
once per processed frame with the frame indices 1, 2, ..., N and the
constant reported total, provided that total is positive; with a
non-positive reported total the callback is never invoked. -/
theorem C6_progress_calls (m : YoloModel) (input : InputVideo) :
    (process_video_with_yolo m true input).progressCalls =
      (if 0 < totalFramesOf input
       then (List.range input.frames.length).map (fun i => (i + 1, totalFramesOf input))
       else []) := by
  rw [run_eq, expectedProgress_closed]
  by_cases h : 0 < totalFramesOf input
  · simp [h]
  · simp [h]

/-- C7: the pipeline is deterministic: two runs over the same decoded frame
sequence, the same reported properties and the same per-frame model outputs
(inference function and name table) produce identical final states, hence
the same stats Counter, the same written-frame sequence and the same
progress-callback invocation sequence. -/
theorem C7_deterministic (m1 m2 : YoloModel) (cb : Bool)
    (in1 in2 : InputVideo)
    (hinf : m1.infer = m2.infer) (hnames : m1.names = m2.names)
    (hframes : in1.frames = in2.frames) (hraw : in1.raw = in2.raw) :
    process_video_with_yolo m1 cb in1 = process_video_with_yolo m2 cb in2 := by
  cases m1; cases m2; cases in1; cases in2
  simp_all

theorem C7_witness :
    process_video_with_yolo demoModel true demoInput =
      process_video_with_yolo demoModel true demoInput :=
  C7_deterministic demoModel demoModel true demoInput demoInput rfl rfl rfl rfl

/-- C8: get_video_properties substitutes DEFAULT_FPS = 25 exactly when the
decoder reports a (falsy) zero FPS, passes a nonzero FPS through unchanged,
and returns width, height and frame count truncated to integers. -/
theorem C8_video_properties (raw : RawVideoProps) :
    ((raw.fps = 0 → (get_video_properties raw).1 = DEFAULT_FPS) ∧
     (raw.fps ≠ 0 → (get_video_properties raw).1 = raw.fps)) ∧
    (get_video_properties raw).2.1 = pyTrunc raw.width ∧
    (get_video_properties raw).2.2.1 = pyTrunc raw.height ∧
    (get_video_properties raw).2.2.2 = pyTrunc raw.frameCount ∧
    DEFAULT_FPS = 25 := by
  refine ⟨⟨fun h => ?_, fun h => ?_⟩, rfl, rfl, rfl, rfl⟩ <;>
    simp [get_video_properties, h]

theorem C8_witness :
    (get_video_properties ⟨0, 640, 480, 100⟩).1 = DEFAULT_FPS ∧
    (get_video_properties ⟨30, 640, 480, 100⟩).1 = 30 :=
  ⟨(C8_video_properties ⟨0, 640, 480, 100⟩).1.1 rfl,
   (C8_video_properties ⟨30, 640, 480, 100⟩).1.2 (by norm_num)⟩

/-- C9: the progress computation never divides by zero: update_progress
divides only in its total > 0 branch, where the divisor cast is nonzero, and
reports 0 for a non-positive total; moreover every progress invocation the
frame loop makes carries a positive total, so the guarded-zero branch is
never reached from the pipeline. -/
theorem C9_no_division_by_zero :
    (∀ (c : Nat) (t : ℤ), t ≤ 0 → update_progress c t = 0) ∧
    (∀ (c : Nat) (t : ℤ), 0 < t →
      ((t : ℚ) ≠ 0 ∧ update_progress c t = (c : ℚ) / (t : ℚ))) ∧
    (∀ (m : YoloModel) (cb : Bool) (input : InputVideo) (c : Nat) (t : ℤ),
      Event.progress c t ∈ (process_video_with_yolo m cb input).trace → 0 < t) := by
  refine ⟨fun c t h => ?_, fun c t h => ⟨?_, ?_⟩, fun m cb input c t h => ?_⟩
  · simp [update_progress, show ¬(0 < t) by omega]
  · exact_mod_cast (show (t : ℚ) ≠ 0 from by exact_mod_cast (by omega : t ≠ 0))
  · simp [update_progress, h]
  · rw [run_eq] at h
    exact (progress_mem_expectedTrace m cb (totalFramesOf input)
      input.frames 0 c t h).1

theorem C9_witness :
    update_progress 3 (-1) = 0 ∧ (0 : ℤ) < 10 :=
  ⟨C9_no_division_by_zero.1 3 (-1) (by decide),
   C9_no_division_by_zero.2.2 demoModel true demoInput 1 10 (by decide)⟩

/-- C10: encode_to_h264 returns normally whatever the external transcoder
does: subprocess.run is invoked without check, so any exit code yields a
normal return, and the function's result does not depend on the external
process outcome at all. -/
theorem C10_encode_ignores_exit_status (runner althRunner : List String → ℤ)
    (p i o : String) :
    (encode_to_h264 runner p i o).1 = Except.ok () ∧
    (encode_to_h264 runner p i o).1 = (encode_to_h264 althRunner p i o).1 ∧
    (∀ ec : ℤ, subprocessRun false ec = Except.ok ec) := by
  refine ⟨rfl, rfl, fun ec => ?_⟩
  simp [subprocessRun]

end PPE
